import Mathlib

/-!
Verification of `src/Utils/use-s3-auth-state.ts` (Baileys S3 auth-state adapter).

The module persists authentication state in an S3 bucket:
`writeData` / `readData` / `removeData` are CRUD operations on JSON-serialized
values keyed by `pfx + fixFileName(key)`, serialized per object key through a
named lock, and the returned handle exposes `state.keys.get` / `state.keys.set`
and `saveCreds`.

We shallowly embed the module: JavaScript values handled by the adapter are
modelled by `JValue`; the S3 client is modelled by an explicit environment
`S3Env` holding the bucket contents and fault-injection flags; every adapter
operation becomes a pure function on that environment, with `Except` for
operations whose failures the source propagates and a plain result where the
source catches all errors.
-/

/-- A JavaScript value as handled by the adapter: JSON values plus raw binary
byte sequences (`Buffer` / `Uint8Array`). Numbers are modelled as integers
(the adapter never does arithmetic on them). -/
inductive JValue where
  | null : JValue
  | bool (b : Bool) : JValue
  | num (n : Int) : JValue
  | str (s : String) : JValue
  | arr (xs : List JValue) : JValue
  | obj (fields : List (String × JValue)) : JValue
  | buffer (bytes : List Nat) : JValue
deriving Repr

/-- JavaScript truthiness of a `JValue`: `null`, `false`, `0` and the empty
string are falsy; every array, object and buffer is truthy. -/
def JValue.truthy : JValue → Bool
  | .null => false
  | .bool b => b
  | .num n => n != 0
  | .str s => s ≠ ""
  | .arr _ => true
  | .obj _ => true
  | .buffer _ => true

namespace BufferJSON

/-- Read a list of JSON numbers back as a byte list; any non-number entry
makes the list an invalid `data` payload. -/
def asBytes : List JValue → Option (List Nat)
  | [] => some []
  | .num n :: rest => (asBytes rest).map (n.toNat :: ·)
  | _ => none

/-- Recognize the tagged-buffer object shape
`\x7b"type":"Buffer","data":[<byte>,...]\x7d` produced by the replacer,
returning its byte payload. -/
def bufTag : List (String × JValue) → Option (List Nat)
  | [(k1, .str t), (k2, .arr ds)] =>
    if k1 = "type" ∧ t = "Buffer" ∧ k2 = "data" then asBytes ds else none
  | _ => none

mutual

/-- Modelled from the spec: `BufferJSON.replacer` (the source imports it from
`./generics`, which is not part of this repository snapshot). Value-level
effect of `JSON.stringify(v, BufferJSON.replacer)`: every binary byte
sequence is encoded as a tagged object with a `"type"` field holding
`"Buffer"` and a `"data"` field holding the byte array; all other
structure is preserved. -/
def encode : JValue → JValue
  | .null => .null
  | .bool b => .bool b
  | .num n => .num n
  | .str s => .str s
  | .buffer bs =>
    .obj [("type", .str "Buffer"), ("data", .arr (bs.map (fun b => .num (Int.ofNat b))))]
  | .arr xs => .arr (encodeList xs)
  | .obj fs => .obj (encodeObj fs)

def encodeList : List JValue → List JValue
  | [] => []
  | x :: xs => encode x :: encodeList xs

def encodeObj : List (String × JValue) → List (String × JValue)
  | [] => []
  | (k, v) :: fs => (k, encode v) :: encodeObj fs

end

mutual

/-- Modelled from the spec: `BufferJSON.reviver` (imported from `./generics`,
not part of this repository snapshot). Value-level effect of
`JSON.parse(text, BufferJSON.reviver)`: working bottom-up as a JSON reviver
does, any object of the tagged-buffer shape is decoded back to a raw byte
sequence; everything else is preserved. -/
def decode : JValue → JValue
  | .null => .null
  | .bool b => .bool b
  | .num n => .num n
  | .str s => .str s
  | .buffer bs => .buffer bs
  | .arr xs => .arr (decodeList xs)
  | .obj fs =>
    let fs2 := decodeObj fs
    match bufTag fs2 with
    | some bs => .buffer bs
    | none => .obj fs2

def decodeList : List JValue → List JValue
  | [] => []
  | x :: xs => decode x :: decodeList xs

def decodeObj : List (String × JValue) → List (String × JValue)
  | [] => []
  | (k, v) :: fs => (k, decode v) :: decodeObj fs

end

mutual

/-- A value is tag-free when none of its plain sub-objects has the
tagged-buffer shape the reviver recognizes (raw buffers themselves are
fine: the replacer converts them before the reviver ever sees them). -/
def noTag : JValue → Bool
  | .null => true
  | .bool _ => true
  | .num _ => true
  | .str _ => true
  | .buffer _ => true
  | .arr xs => noTagList xs
  | .obj fs => (bufTag fs).isNone && noTagObj fs

def noTagList : List JValue → Bool
  | [] => true
  | x :: xs => noTag x && noTagList xs

def noTagObj : List (String × JValue) → Bool
  | [] => true
  | (_, v) :: fs => noTag v && noTagObj fs

end


end BufferJSON

/-- What one stored object body looks like to `readData` after
`response.Body?.transformToString()`: valid JSON text serializing a value
(as revived by `BufferJSON.decode` on parse), non-empty text that is not
valid JSON, or the empty string. -/
inductive S3Body where
  | jsonOf (v : JValue) : S3Body
  | malformed : S3Body
  | emptyStr : S3Body
deriving Repr

/-- Failures of the embedded operations: S3 client errors (injected through
`S3Env`'s fault flags), a missing object on `GetObjectCommand`, and a
`JSON.parse` failure. -/
inductive S3Error where
  | putError : S3Error
  | getError : S3Error
  | deleteError : S3Error
  | parseError : S3Error
  | noSuchKey : S3Error
deriving Repr, DecidableEq

/-- The S3 client plus bucket, as one explicit environment.
`objects k = none` means no object is stored under `k` (`GetObjectCommand`
throws); `objects k = some none` means the object exists but the response
`Body` is undefined; `objects k = some (some b)` means the body reads back
as `b`. The three `Fails` flags inject transient client failures per key. -/
structure S3Env where
  objects : String → Option (Option S3Body)
  getFails : String → Bool
  putFails : String → Bool
  deleteFails : String → Bool

/-- Replace every occurrence of the character `c` by the character list `r`. -/
def replaceAll (c : Char) (r : List Char) : List Char → List Char
  | [] => []
  | x :: xs => (if x = c then r else [x]) ++ replaceAll c r xs

/-- Source `const fixFileName = (file?) => file?.replace(/\//g, '__')?.replace(/:/g, '-') || ''`:
every `/` becomes `__`, then every `:` becomes `-`; an undefined argument
(and, through `|| ''`, an empty result) yields the empty string. -/
def fixFileName : Option String → String
  | none => ""
  | some s =>
    let t : String := ⟨replaceAll ':' ['-'] (replaceAll '/' ['_', '_'] s.data)⟩
    if t = "" then "" else t

/-- The resolved object key: `` `${prefix}${fixFileName(key)}` `` (the
configured prefix is called `pfx` throughout this embedding). -/
def objectKeyOf (pfx key : String) : String := pfx ++ fixFileName (some key)

/-- The call `s3Client.send(new GetObjectCommand(params))` followed by
`response.Body?.transformToString()`: throws on an injected fetch failure or
a missing object, otherwise returns the optional body text. -/
def s3Get (env : S3Env) (k : String) : Except S3Error (Option S3Body) :=
  if env.getFails k then .error .getError
  else match env.objects k with
    | none => .error .noSuchKey
    | some b => .ok b

/-- The call `s3Client.send(new PutObjectCommand(params))`: throws on an injected
failure, otherwise stores the body under the key. -/
def s3Put (env : S3Env) (k : String) (body : S3Body) : Except S3Error S3Env :=
  if env.putFails k then .error .putError
  else .ok { env with objects := fun k2 => if k2 = k then some (some body) else env.objects k2 }

/-- The call `s3Client.send(new DeleteObjectCommand(params))`: throws on an injected
failure, otherwise removes the object (deleting an absent key succeeds). -/
def s3Delete (env : S3Env) (k : String) : Except S3Error S3Env :=
  if env.deleteFails k then .error .deleteError
  else .ok { env with objects := fun k2 => if k2 = k then none else env.objects k2 }

/-- Source `writeData(data, key)`: resolves the object key and PUTs
`JSON.stringify(data, BufferJSON.replacer)` — i.e. the serialized form of
`BufferJSON.encode data`. Failures are not caught: the `Except` error
propagates to the caller. -/
def writeData (env : S3Env) (pfx : String) (data : JValue) (key : String) :
    Except S3Error S3Env :=
  s3Put env (objectKeyOf pfx key) (.jsonOf (BufferJSON.encode data))

/-- The `try` block of `readData(key)`: GET the object; if the body text is
falsy (undefined body or empty string) return `null` without parsing,
otherwise `JSON.parse(data, BufferJSON.reviver)`. -/
def readDataE (env : S3Env) (pfx key : String) : Except S3Error (Option JValue) := do
  let data ← s3Get env (objectKeyOf pfx key)
  match data with
  | some (.jsonOf v) => pure (some (BufferJSON.decode v))
  | some .malformed => throw .parseError
  | some .emptyStr => pure none
  | none => pure none

/-- Source `readData(key)`: the surrounding `catch` converts every failure —
fetch errors, missing objects, and parse errors alike — into `null`. -/
def readData (env : S3Env) (pfx key : String) : Option JValue :=
  match readDataE env pfx key with
  | .ok v => v
  | .error _ => none

/-- The `try` block of `removeData(key)`: resolve the object key and DELETE it. -/
def removeDataE (env : S3Env) (pfx key : String) : Except S3Error S3Env :=
  s3Delete env (objectKeyOf pfx key)

/-- Source `removeData(key)`: errors on deletion are ignored — on failure the
bucket is left unchanged and the call still completes. -/
def removeData (env : S3Env) (pfx key : String) : S3Env :=
  match removeDataE env pfx key with
  | .ok env2 => env2
  | .error _ => env

/-- The logical key `` `${category}-${id}.json` `` used by `keys.get` and
`keys.set`. -/
def keyFileName (category id : String) : String := category ++ "-" ++ id ++ ".json"

/-- JavaScript truthiness of `readData`'s result (`null` is falsy). -/
def optTruthy : Option JValue → Bool
  | none => false
  | some v => v.truthy

/-- Source `state.keys.get(type, ids)`: one `readData` per id, assembled into a
mapping from id to value-or-null. The `app-state-sync-key` category routes
each truthy value through `proto.Message.AppStateSyncKeyData.fromObject`,
an external deserializer taken here as the parameter `fromObject`. -/
def keysGet (fromObject : JValue → JValue) (env : S3Env) (pfx ty : String)
    (ids : List String) : List (String × Option JValue) :=
  ids.map fun id =>
    let value := readData env pfx (keyFileName ty id)
    let value := if ty = "app-state-sync-key" ∧ optTruthy value then
        value.map fromObject
      else value
    (id, value)

/-- One category's inner loop of `state.keys.set`: for each `(id, value)`,
a truthy value schedules `writeData` and a falsy one schedules `removeData`.
The `Bool` component records whether some scheduled write rejected (making
the surrounding `Promise.all` reject); a rejected write leaves its own key
unwritten but does not stop the other scheduled tasks. -/
def keysSetStep (pfx : String) (acc : S3Env × Bool) (category : String) :
    List (String × JValue) → S3Env × Bool
  | [] => acc
  | (id, value) :: rest =>
    let acc2 :=
      if value.truthy then
        match writeData acc.1 pfx value (keyFileName category id) with
        | .ok env2 => (env2, acc.2)
        | .error _ => (acc.1, true)
      else (removeData acc.1 pfx (keyFileName category id), acc.2)
    keysSetStep pfx acc2 category rest

/-- Source `state.keys.set(data)`: iterate over every category and id, scheduling
writes and removes; returns the resulting bucket state and whether the call
rejects (true iff at least one write rejected). -/
def keysSet (env : S3Env) (pfx : String)
    (data : List (String × List (String × JValue))) : S3Env × Bool :=
  data.foldl (fun acc cd => keysSetStep pfx acc cd.1 cd.2) (env, false)

/-- Source `const creds = await readData('creds.json') || initAuthCreds()`: the
default-credentials routine `initAuthCreds` lives in `./auth-utils`, outside
this snapshot, and is taken as a parameter; `||` is JavaScript truthiness. -/
def initCreds (env : S3Env) (pfx : String) (initAuthCreds : JValue) : JValue :=
  match readData env pfx "creds.json" with
  | some v => if v.truthy then v else initAuthCreds
  | none => initAuthCreds

/-- Source `saveCreds()`: `writeData(creds, 'creds.json')`; write failures propagate. -/
def saveCreds (env : S3Env) (pfx : String) (creds : JValue) : Except S3Error S3Env :=
  writeData env pfx creds "creds.json"

/-- Modelled from the spec: the process-wide named lock
`operationLock = new AsyncLock(...)` with unbounded pending waiters (the
`async-lock` package is an external dependency, not part of this snapshot).
A lock map assigns to every object key its FIFO queue of operation ids:
the head of the queue holds the lock, the rest wait. -/
def LockMap : Type := String → List Nat

/-- The lock map before any operation: every queue is empty. -/
def emptyLock : LockMap := fun _ => []

/-- Source `operationLock.acquire(objectKey, fn)`: the operation joins the tail of
the FIFO queue of that object key; no other queue changes. -/
def acquire (m : LockMap) (k : String) (opId : Nat) : LockMap :=
  fun k2 => if k2 = k then m k ++ [opId] else m k2

/-- The guarded callback finishes: the holder leaves the queue and the next
waiter in FIFO order (if any) becomes the holder. -/
def release (m : LockMap) (k : String) : LockMap :=
  fun k2 => if k2 = k then (m k).tail else m k2

/-- The operation currently holding the named lock of `k` (the queue head);
at most one operation per key is in flight. -/
def holder (m : LockMap) (k : String) : Option Nat := (m k).head?

/-- An operation is blocked at key `k` when it sits in that queue without
holding the lock. -/
def blocked (m : LockMap) (k : String) (opId : Nat) : Bool :=
  (m k).contains opId && holder m k != some opId

/-- Acquire the lock of `k` for each operation of `ids`, in list order. -/
def acquireAll (m : LockMap) (k : String) (ids : List Nat) : LockMap :=
  ids.foldl (fun m2 opId => acquire m2 k opId) m

/-- Release the lock of `k` a given number of times. -/
def releaseN (m : LockMap) (k : String) : Nat → LockMap
  | 0 => m
  | n + 1 => releaseN (release m k) k n

/-- The bucket after storing (or, with `none`, dropping) one entry: the point
update of `S3Env.objects` performed by a successful PUT or DELETE. -/
def setObject (env : S3Env) (k0 : String) (b : Option (Option S3Body)) : S3Env :=
  { env with objects := fun k => if k = k0 then b else env.objects k }

/-- A bucket with no objects and no injected failures. -/
def cleanEnv : S3Env :=
  ⟨fun _ => none, fun _ => false, fun _ => false, fun _ => false⟩

/-- A bucket whose every object holds malformed JSON text. -/
def malformedEnv : S3Env :=
  ⟨fun _ => some (some S3Body.malformed), fun _ => false, fun _ => false, fun _ => false⟩

/-- A bucket where every PUT fails while GET and DELETE succeed. -/
def failPutEnv : S3Env :=
  ⟨fun _ => none, fun _ => false, fun _ => true, fun _ => false⟩


namespace BufferJSON

theorem asBytes_map_ofNat (bs : List Nat) :
    asBytes (bs.map (fun b => JValue.num (Int.ofNat b))) = some bs := by
  induction bs with
  | nil => rfl
  | cons b bs ih =>
    rw [List.map_cons, asBytes, ih]
    rfl

theorem decodeList_map_num (bs : List Nat) :
    decodeList (bs.map (fun b => JValue.num (Int.ofNat b)))
      = bs.map (fun b => JValue.num (Int.ofNat b)) := by
  induction bs with
  | nil => rfl
  | cons b bs ih => rw [List.map_cons, decodeList, decode, ih]

theorem decode_encode_buffer (bs : List Nat) :
    decode (encode (.buffer bs)) = .buffer bs := by
  rw [encode]
  rw [show decode (JValue.obj [("type", JValue.str "Buffer"),
        ("data", JValue.arr (bs.map (fun b => JValue.num (Int.ofNat b))))])
      = (match bufTag [("type", JValue.str "Buffer"),
          ("data", JValue.arr (decodeList (bs.map (fun b => JValue.num (Int.ofNat b)))))] with
        | some bs2 => JValue.buffer bs2
        | none => JValue.obj [("type", JValue.str "Buffer"),
            ("data", JValue.arr (decodeList (bs.map (fun b => JValue.num (Int.ofNat b)))))]) from rfl]
  rw [decodeList_map_num, bufTag]
  simp only [String.reduceEq, and_self, if_true, true_and, if_pos]
  rw [asBytes_map_ofNat]

mutual

theorem decode_encode : ∀ (v : JValue), noTag v = true → decode (encode v) = v
  | .null, _ => rfl
  | .bool _, _ => rfl
  | .num _, _ => rfl
  | .str _, _ => rfl
  | .buffer bs, _ => decode_encode_buffer bs
  | .arr xs, h => by
    simp only [noTag] at h
    simp only [encode, decode, decodeList_encodeList xs h]
  | .obj fs, h => by
    simp only [noTag, Bool.and_eq_true, Option.isNone_iff_eq_none] at h
    simp only [encode, decode, decodeObj_encodeObj fs h.2, h.1]

theorem decodeList_encodeList :
    ∀ (xs : List JValue), noTagList xs = true → decodeList (encodeList xs) = xs
  | [], _ => rfl
  | x :: xs, h => by
    simp only [noTagList, Bool.and_eq_true] at h
    simp only [encodeList, decodeList, decode_encode x h.1, decodeList_encodeList xs h.2]

theorem decodeObj_encodeObj :
    ∀ (fs : List (String × JValue)), noTagObj fs = true → decodeObj (encodeObj fs) = fs
  | [], _ => rfl
  | (k, v) :: fs, h => by
    simp only [noTagObj, Bool.and_eq_true] at h
    simp only [encodeObj, decodeObj, decode_encode v h.1, decodeObj_encodeObj fs h.2]

end

end BufferJSON

theorem acquireAll_apply (k : String) (ids : List Nat) :
    ∀ (m : LockMap), acquireAll m k ids k = m k ++ ids := by
  induction ids with
  | nil => intro m; simp [acquireAll]
  | cons i ids ih =>
    intro m
    show acquireAll (acquire m k i) k ids k = m k ++ (i :: ids)
    rw [ih (acquire m k i)]
    simp [acquire]

theorem releaseN_apply (k : String) : ∀ (n : Nat) (m : LockMap),
    releaseN m k n k = (m k).drop n := by
  intro n
  induction n with
  | zero => intro m; rfl
  | succ n ih =>
    intro m
    show releaseN (release m k) k n k = (m k).drop (n + 1)
    rw [ih (release m k)]
    simp [release, List.tail_drop, List.drop_drop]

theorem writeData_ok (env : S3Env) (pfx : String) (v : JValue) (key : String)
    (h : env.putFails (objectKeyOf pfx key) = false) :
    writeData env pfx v key = .ok (setObject env (objectKeyOf pfx key)
      (some (some (S3Body.jsonOf (BufferJSON.encode v))))) := by
  unfold writeData s3Put setObject
  rw [h]
  rfl

theorem writeData_failed (env : S3Env) (pfx : String) (v : JValue) (key : String)
    (h : env.putFails (objectKeyOf pfx key) = true) :
    writeData env pfx v key = .error .putError := by
  unfold writeData s3Put
  rw [h]
  rfl

theorem removeData_ok (env : S3Env) (pfx key : String)
    (h : env.deleteFails (objectKeyOf pfx key) = false) :
    removeData env pfx key = setObject env (objectKeyOf pfx key) none := by
  unfold removeData removeDataE s3Delete setObject
  rw [h]
  rfl

theorem removeData_failed (env : S3Env) (pfx key : String)
    (h : env.deleteFails (objectKeyOf pfx key) = true) :
    removeData env pfx key = env := by
  unfold removeData removeDataE s3Delete
  rw [h]
  rfl

theorem readData_jsonOf (env : S3Env) (pfx key : String) (v : JValue)
    (hg : env.getFails (objectKeyOf pfx key) = false)
    (ho : env.objects (objectKeyOf pfx key) = some (some (S3Body.jsonOf v))) :
    readData env pfx key = some (BufferJSON.decode v) := by
  unfold readData readDataE s3Get
  rw [hg, ho]
  rfl

theorem readData_missing (env : S3Env) (pfx key : String)
    (ho : env.objects (objectKeyOf pfx key) = none) :
    readData env pfx key = none := by
  unfold readData readDataE s3Get
  cases hg : env.getFails (objectKeyOf pfx key)
  · rw [ho]
    rfl
  · rfl

theorem mem_replaceAll {x c : Char} {r : List Char} :
    ∀ {l : List Char}, x ∈ replaceAll c r l → x ∈ r ∨ (x ∈ l ∧ x ≠ c)
  | [], h => by simp [replaceAll] at h
  | y :: ys, h => by
    rw [replaceAll, List.mem_append] at h
    rcases h with h | h
    · by_cases hyc : y = c
      · rw [if_pos hyc] at h
        exact .inl h
      · rw [if_neg hyc, List.mem_singleton] at h
        exact .inr ⟨h ▸ List.mem_cons_self y ys, h ▸ hyc⟩
    · rcases mem_replaceAll h with h2 | ⟨h2, h3⟩
      · exact .inl h2
      · exact .inr ⟨List.mem_cons_of_mem y h2, h3⟩

theorem fixFileName_sanitized (s : String) :
    '/' ∉ (fixFileName (some s)).data ∧ ':' ∉ (fixFileName (some s)).data := by
  rw [fixFileName]
  set t : String := ⟨replaceAll ':' ['-'] (replaceAll '/' ['_', '_'] s.data)⟩ with ht
  by_cases he : t = ""
  · simp [he]
  · rw [if_neg he]
    constructor
    · intro hmem
      rw [ht] at hmem
      rcases mem_replaceAll hmem with h | ⟨h, _⟩
      · simp at h
      · rcases mem_replaceAll h with h2 | ⟨_, h3⟩
        · simp at h2
        · exact h3 rfl
    · intro hmem
      rw [ht] at hmem
      rcases mem_replaceAll hmem with h | ⟨_, h2⟩
      · simp at h
      · exact h2 rfl

/-- C3: the resolved object key equals the configured prefix followed by
`fixFileName(key)`; `fixFileName` replaces every `/` by `__` and every `:`
by `-` (e.g. `a/b:c.json` becomes `a__b-c.json`), so its output contains
neither `/` nor `:`; and an undefined key sanitizes to the empty string. -/
theorem objectKey_resolution_sanitize :
    fixFileName none = "" ∧
    (∀ (pfx k : String), objectKeyOf pfx k = pfx ++ fixFileName (some k)) ∧
    fixFileName (some "a/b:c.json") = "a__b-c.json" ∧
    (∀ (s : String),
      '/' ∉ (fixFileName (some s)).data ∧ ':' ∉ (fixFileName (some s)).data) :=
  ⟨rfl, fun _ _ => rfl, by decide, fixFileName_sanitized⟩

/-- C2 counterexample: a plain JSON object that happens to have the
tagged-buffer shape is left unchanged by the replacer but turned into a raw
byte sequence by the reviver, so `decode (encode v) = v` fails for it —
the round-trip is not universal over all JSON-serializable values. -/
theorem bufferJSON_roundtrip_counterexample :
    BufferJSON.decode (BufferJSON.encode
        (JValue.obj [("type", JValue.str "Buffer"), ("data", JValue.arr [])]))
      ≠ JValue.obj [("type", JValue.str "Buffer"), ("data", JValue.arr [])] := by
  intro h
  rw [show BufferJSON.decode (BufferJSON.encode
        (JValue.obj [("type", JValue.str "Buffer"), ("data", JValue.arr [])]))
      = JValue.buffer [] from rfl] at h
  exact JValue.noConfusion h

/-- C2 (amended): for every value none of whose plain sub-objects already
has the tagged-buffer shape, the codec round-trips: the replacer encodes
every byte sequence as a tagged object and the reviver decodes it back to
an equal byte sequence, preserving all other structure. -/
theorem bufferJSON_roundtrip (v : JValue) (h : BufferJSON.noTag v = true) :
    BufferJSON.decode (BufferJSON.encode v) = v :=
  BufferJSON.decode_encode v h

/-- C2 witness: the round-trip at a value nesting the byte sequence
`[0, 1, 255]` inside an object. -/
theorem bufferJSON_roundtrip_witness :
    BufferJSON.noTag (JValue.obj [("key", JValue.buffer [0, 1, 255])]) = true ∧
    BufferJSON.decode (BufferJSON.encode
        (JValue.obj [("key", JValue.buffer [0, 1, 255])]))
      = JValue.obj [("key", JValue.buffer [0, 1, 255])] :=
  ⟨by decide, bufferJSON_roundtrip _ (by decide)⟩

/-- C10: `keys.set` decides present/absent by JavaScript truthiness — any
falsy value (`null`, `0`, the empty string, `false`) schedules a
`removeData` of the key, never a `writeData`, so falsy values are never
persisted through `keys.set`. -/
theorem keysSet_falsy_removes (env : S3Env) (pfx category id : String)
    (v : JValue) (h : v.truthy = false) :
    keysSet env pfx [(category, [(id, v)])]
      = (removeData env pfx (keyFileName category id), false) := by
  simp [keysSet, keysSetStep, h]

/-- C10 witness: each kind of falsy value — `0`, `""`, `false`, `null` —
is routed to `removeData`. -/
theorem keysSet_falsy_removes_witness :
    keysSet cleanEnv "" [("pre-key", [("1", JValue.num 0)])]
      = (removeData cleanEnv "" (keyFileName "pre-key" "1"), false) ∧
    keysSet cleanEnv "" [("pre-key", [("1", JValue.str "")])]
      = (removeData cleanEnv "" (keyFileName "pre-key" "1"), false) ∧
    keysSet cleanEnv "" [("pre-key", [("1", JValue.bool false)])]
      = (removeData cleanEnv "" (keyFileName "pre-key" "1"), false) ∧
    keysSet cleanEnv "" [("pre-key", [("1", JValue.null)])]
      = (removeData cleanEnv "" (keyFileName "pre-key" "1"), false) :=
  ⟨keysSet_falsy_removes _ _ _ _ _ (by decide),
   keysSet_falsy_removes _ _ _ _ _ (by decide),
   keysSet_falsy_removes _ _ _ _ _ (by decide),
   keysSet_falsy_removes _ _ _ _ _ (by decide)⟩

/-- C4: `readData` and `removeData` never throw, whatever the store does:
a read of a never-written key yields `null`; every failure inside the
`try` block of `readData` is converted to `null`; every failure inside
`removeData` is swallowed, leaving the bucket unchanged; and removing a
never-written key completes with the key still absent. -/
theorem read_remove_never_throw :
    (∀ (env : S3Env) (pfx key : String),
        env.objects (objectKeyOf pfx key) = none → readData env pfx key = none) ∧
    (∀ (env : S3Env) (pfx key : String) (e : S3Error),
        readDataE env pfx key = .error e → readData env pfx key = none) ∧
    (∀ (env : S3Env) (pfx key : String) (e : S3Error),
        removeDataE env pfx key = .error e → removeData env pfx key = env) ∧
    (∀ (env : S3Env) (pfx key : String),
        env.objects (objectKeyOf pfx key) = none →
        (removeData env pfx key).objects (objectKeyOf pfx key) = none) := by
  refine ⟨readData_missing, ?_, ?_, ?_⟩
  · intro env pfx key e he
    unfold readData
    rw [he]
  · intro env pfx key e he
    unfold removeData
    rw [he]
  · intro env pfx key ho
    cases hd : env.deleteFails (objectKeyOf pfx key)
    · rw [removeData_ok env pfx key hd]
      simp [setObject]
    · rw [removeData_failed env pfx key hd]
      exact ho

/-- C4 witness: on an empty bucket, reading a never-written key yields the
absent sentinel and removing a never-written key completes with the key
still absent. -/
theorem read_remove_never_throw_witness :
    readData cleanEnv "" "never-written.json" = none ∧
    (removeData cleanEnv "" "never-written.json").objects
        (objectKeyOf "" "never-written.json") = none :=
  ⟨read_remove_never_throw.1 cleanEnv "" "never-written.json" rfl,
   read_remove_never_throw.2.2.2 cleanEnv "" "never-written.json" rfl⟩

/-- C6 counterexample: with malformed JSON stored under the key, the parse
failure is raised inside the `try` block of `readData` but the caller
receives the absent sentinel `null` — the failure is swallowed, not
propagated, contradicting the claim. -/
theorem malformed_read_counterexample :
    readDataE malformedEnv "" "session-1.json" = .error .parseError ∧
    readData malformedEnv "" "session-1.json" = none :=
  ⟨rfl, rfl⟩

/-- C6 (amended): for every key whose stored object contains malformed
JSON, the parse failure raised by `JSON.parse` is caught by `readData`'s
surrounding try/catch and the caller receives the absent sentinel `null`
instead of an error. -/
theorem malformed_read_swallowed (env : S3Env) (pfx key : String)
    (hg : env.getFails (objectKeyOf pfx key) = false)
    (ho : env.objects (objectKeyOf pfx key) = some (some S3Body.malformed)) :
    readDataE env pfx key = .error .parseError ∧ readData env pfx key = none := by
  have he : readDataE env pfx key = .error .parseError := by
    unfold readDataE s3Get
    rw [hg, ho]
    rfl
  refine ⟨he, ?_⟩
  unfold readData
  rw [he]

/-- C6 witness: the amended behavior at a concrete bucket holding malformed
JSON under every key. -/
theorem malformed_read_swallowed_witness :
    readDataE malformedEnv "" "creds.json" = .error .parseError ∧
    readData malformedEnv "" "creds.json" = none :=
  malformed_read_swallowed malformedEnv "" "creds.json" rfl rfl

/-- C9: when the stored object exists but its body is undefined or the
empty string, the body text is falsy, so `readData` returns `null` without
ever calling `JSON.parse`: the `try` block itself already succeeds with
`null` (no parse error is raised, and no empty value is returned). -/
theorem empty_body_reads_null (env : S3Env) (pfx key : String)
    (hg : env.getFails (objectKeyOf pfx key) = false)
    (ho : env.objects (objectKeyOf pfx key) = some none ∨
          env.objects (objectKeyOf pfx key) = some (some S3Body.emptyStr)) :
    readDataE env pfx key = .ok none ∧ readData env pfx key = none := by
  have he : readDataE env pfx key = .ok none := by
    unfold readDataE s3Get
    rcases ho with ho | ho <;> rw [hg, ho] <;> rfl
  refine ⟨he, ?_⟩
  unfold readData
  rw [he]

/-- C9 witness: a bucket whose object exists with an undefined body, and one
whose object holds the empty string. -/
theorem empty_body_reads_null_witness :
    readDataE ⟨fun _ => some none, fun _ => false, fun _ => false, fun _ => false⟩
        "" "k.json" = .ok none ∧
    readData ⟨fun _ => some (some S3Body.emptyStr), fun _ => false, fun _ => false,
        fun _ => false⟩ "" "k.json" = none :=
  ⟨(empty_body_reads_null _ "" "k.json" rfl (.inl rfl)).1,
   (empty_body_reads_null _ "" "k.json" rfl (.inr rfl)).2⟩

/-- C8: in the named-lock model, operations on the same resolved object key
are mutually exclusive (the holder is the single queue head) and granted in
FIFO acquisition order with unbounded waiters: after `n` releases amid any
number of queued acquisitions, the holder is exactly the `n`-th acquirer.
Operations on keys resolving to distinct object keys share no lock:
acquiring or releasing one key's lock leaves the other key's queue — and
the blocked status of any operation waiting there — unchanged. -/
theorem lock_fifo_and_parallel :
    (∀ (k : String) (ids : List Nat) (n : Nat),
        holder (releaseN (acquireAll emptyLock k ids) k n) k = (ids.drop n).head?) ∧
    (∀ (m : LockMap) (pfx k1 k2 : String) (opId w : Nat),
        objectKeyOf pfx k1 ≠ objectKeyOf pfx k2 →
        acquire m (objectKeyOf pfx k1) opId (objectKeyOf pfx k2)
            = m (objectKeyOf pfx k2) ∧
        release m (objectKeyOf pfx k1) (objectKeyOf pfx k2)
            = m (objectKeyOf pfx k2) ∧
        blocked (acquire m (objectKeyOf pfx k1) opId) (objectKeyOf pfx k2) w
            = blocked m (objectKeyOf pfx k2) w) := by
  constructor
  · intro k ids n
    unfold holder
    rw [releaseN_apply, acquireAll_apply]
    rfl
  · intro m pfx k1 k2 opId w hne
    have hne2 : objectKeyOf pfx k2 ≠ objectKeyOf pfx k1 := Ne.symm hne
    have ha : acquire m (objectKeyOf pfx k1) opId (objectKeyOf pfx k2)
        = m (objectKeyOf pfx k2) := by
      unfold acquire
      rw [if_neg hne2]
    have hr : release m (objectKeyOf pfx k1) (objectKeyOf pfx k2)
        = m (objectKeyOf pfx k2) := by
      unfold release
      rw [if_neg hne2]
    refine ⟨ha, hr, ?_⟩
    unfold blocked holder
    rw [ha]

/-- C8 witness: traffic on the lock of object key `a` does not change the
blocked status of an operation queued on object key `b`. -/
theorem lock_fifo_and_parallel_witness :
    acquire emptyLock (objectKeyOf "" "a") 0 (objectKeyOf "" "b")
        = emptyLock (objectKeyOf "" "b") ∧
    blocked (acquire emptyLock (objectKeyOf "" "a") 0) (objectKeyOf "" "b") 1
        = blocked emptyLock (objectKeyOf "" "b") 1 :=
  ⟨(lock_fifo_and_parallel.2 emptyLock "" "a" "b" 0 1 (by decide)).1,
   (lock_fifo_and_parallel.2 emptyLock "" "a" "b" 0 1 (by decide)).2.2⟩

theorem removeData_putFails (env : S3Env) (pfx key : String) :
    (removeData env pfx key).putFails = env.putFails := by
  cases hd : env.deleteFails (objectKeyOf pfx key)
  · rw [removeData_ok env pfx key hd]
    rfl
  · rw [removeData_failed env pfx key hd]

theorem writeData_ok_putFails (env env2 : S3Env) (pfx : String) (v : JValue)
    (key : String) (h : writeData env pfx v key = .ok env2) :
    env2.putFails = env.putFails := by
  cases hp : env.putFails (objectKeyOf pfx key)
  · rw [writeData_ok env pfx v key hp] at h
    injection h with h2
    rw [← h2]
    rfl
  · rw [writeData_failed env pfx v key hp] at h
    exact Except.noConfusion h

theorem keysSetStep_cons (pfx category id : String) (v : JValue)
    (rest : List (String × JValue)) (acc : S3Env × Bool) :
    keysSetStep pfx acc category ((id, v) :: rest)
      = keysSetStep pfx
          (if v.truthy then
            match writeData acc.1 pfx v (keyFileName category id) with
            | .ok env2 => (env2, acc.2)
            | .error _ => (acc.1, true)
          else (removeData acc.1 pfx (keyFileName category id), acc.2))
          category rest := rfl

theorem step_putFails (pfx category id : String) (v : JValue) (acc : S3Env × Bool) :
    (if v.truthy then
        match writeData acc.1 pfx v (keyFileName category id) with
        | .ok env2 => (env2, acc.2)
        | .error _ => (acc.1, true)
      else (removeData acc.1 pfx (keyFileName category id), acc.2)).1.putFails
      = acc.1.putFails := by
  cases hv : v.truthy
  · simp only [hv, Bool.false_eq_true, if_false]
    exact removeData_putFails _ _ _
  · simp only [hv, if_true]
    cases hw : writeData acc.1 pfx v (keyFileName category id) with
    | ok env2 => exact writeData_ok_putFails _ _ _ _ _ hw
    | error e => rfl

theorem step_mono (pfx category id : String) (v : JValue) (acc : S3Env × Bool)
    (h : acc.2 = true) :
    (if v.truthy then
        match writeData acc.1 pfx v (keyFileName category id) with
        | .ok env2 => (env2, acc.2)
        | .error _ => (acc.1, true)
      else (removeData acc.1 pfx (keyFileName category id), acc.2)).2 = true := by
  cases hv : v.truthy
  · simp only [hv, Bool.false_eq_true, if_false]
    exact h
  · simp only [hv, if_true]
    cases hw : writeData acc.1 pfx v (keyFileName category id) with
    | ok env2 => exact h
    | error e => rfl

theorem keysSetStep_putFails (pfx category : String) :
    ∀ (entries : List (String × JValue)) (acc : S3Env × Bool),
      (keysSetStep pfx acc category entries).1.putFails = acc.1.putFails
  | [], _ => rfl
  | (id, v) :: rest, acc => by
    rw [keysSetStep_cons, keysSetStep_putFails pfx category rest _, step_putFails]

theorem keysSetStep_mono (pfx category : String) :
    ∀ (entries : List (String × JValue)) (acc : S3Env × Bool),
      acc.2 = true → (keysSetStep pfx acc category entries).2 = true
  | [], _, h => h
  | (id, v) :: rest, acc, h => by
    rw [keysSetStep_cons]
    exact keysSetStep_mono pfx category rest _ (step_mono pfx category id v acc h)

theorem keysSetStep_write_fails (pfx category : String) :
    ∀ (entries : List (String × JValue)) (acc : S3Env × Bool) (id : String)
      (v : JValue), (id, v) ∈ entries → v.truthy = true →
      acc.1.putFails (objectKeyOf pfx (keyFileName category id)) = true →
      (keysSetStep pfx acc category entries).2 = true
  | [], _, _, _, hmem, _, _ => absurd hmem (List.not_mem_nil _)
  | (id2, v2) :: rest, acc, id, v, hmem, hv, hput => by
    rw [keysSetStep_cons]
    rcases List.mem_cons.mp hmem with heq | hmem2
    · injection heq with h1 h2
      subst h1
      subst h2
      rw [hv, if_pos rfl, writeData_failed acc.1 pfx v (keyFileName category id) hput]
      exact keysSetStep_mono pfx category rest _ rfl
    · refine keysSetStep_write_fails pfx category rest _ id v hmem2 hv ?_
      rw [step_putFails]
      exact hput

theorem keysSetAux_putFails (pfx : String) :
    ∀ (data : List (String × List (String × JValue))) (acc : S3Env × Bool),
      (data.foldl (fun acc2 cd => keysSetStep pfx acc2 cd.1 cd.2) acc).1.putFails
        = acc.1.putFails
  | [], _ => rfl
  | cd :: ds, acc => by
    rw [List.foldl_cons, keysSetAux_putFails pfx ds _,
      keysSetStep_putFails pfx cd.1 cd.2 acc]

theorem keysSetAux_mono (pfx : String) :
    ∀ (data : List (String × List (String × JValue))) (acc : S3Env × Bool),
      acc.2 = true →
      (data.foldl (fun acc2 cd => keysSetStep pfx acc2 cd.1 cd.2) acc).2 = true
  | [], _, h => h
  | cd :: ds, acc, h => by
    rw [List.foldl_cons]
    exact keysSetAux_mono pfx ds _ (keysSetStep_mono pfx cd.1 cd.2 acc h)

theorem keysSetAux_write_fails (pfx : String) :
    ∀ (data : List (String × List (String × JValue))) (acc : S3Env × Bool)
      (category id : String) (v : JValue) (entries : List (String × JValue)),
      (category, entries) ∈ data → (id, v) ∈ entries → v.truthy = true →
      acc.1.putFails (objectKeyOf pfx (keyFileName category id)) = true →
      (data.foldl (fun acc2 cd => keysSetStep pfx acc2 cd.1 cd.2) acc).2 = true
  | [], _, _, _, _, _, hmem, _, _, _ => absurd hmem (List.not_mem_nil _)
  | cd :: ds, acc, category, id, v, entries, hmem, hmem2, hv, hput => by
    rw [List.foldl_cons]
    rcases List.mem_cons.mp hmem with heq | hmem3
    · subst heq
      exact keysSetAux_mono pfx ds _
        (keysSetStep_write_fails pfx category entries acc id v hmem2 hv hput)
    · refine keysSetAux_write_fails pfx ds _ category id v entries hmem3 hmem2 hv ?_
      rw [keysSetStep_putFails pfx cd.1 cd.2 acc]
      exact hput

/-- C5: store failures on writes are not caught: `saveCreds()` rejects when
the underlying PUT of `creds.json` fails, and `keys.set` rejects whenever
at least one of the writes it schedules rejects. -/
theorem write_failures_propagate :
    (∀ (env : S3Env) (pfx : String) (creds : JValue),
        env.putFails (objectKeyOf pfx "creds.json") = true →
        saveCreds env pfx creds = .error .putError) ∧
    (∀ (env : S3Env) (pfx : String)
        (data : List (String × List (String × JValue)))
        (category id : String) (v : JValue) (entries : List (String × JValue)),
        (category, entries) ∈ data → (id, v) ∈ entries → v.truthy = true →
        env.putFails (objectKeyOf pfx (keyFileName category id)) = true →
        (keysSet env pfx data).2 = true) := by
  constructor
  · intro env pfx creds h
    unfold saveCreds
    exact writeData_failed env pfx creds "creds.json" h
  · intro env pfx data category id v entries hmem hmem2 hv hput
    exact keysSetAux_write_fails pfx data (env, false) category id v entries
      hmem hmem2 hv hput

/-- C5 witness: with a failing store, `saveCreds` rejects and a `keys.set`
scheduling one write rejects. -/
theorem write_failures_propagate_witness :
    saveCreds failPutEnv "" JValue.null = .error .putError ∧
    (keysSet failPutEnv "" [("pre-key", [("1", JValue.obj [])])]).2 = true :=
  ⟨write_failures_propagate.1 failPutEnv "" JValue.null rfl,
   write_failures_propagate.2 failPutEnv "" _ "pre-key" "1" (JValue.obj []) _
     (List.Mem.head _) (List.Mem.head _) rfl rfl⟩

/-- C7: initialization reads `creds.json`; when it is absent `state.creds`
is the value produced by the credential-initialization routine
(`initAuthCreds`, an external collaborator passed as a parameter); and after
`saveCreds()` succeeds, a fresh handle against the same bucket and prefix
reads back credentials equal to the first instance's creds (for any truthy,
tag-free credentials object). -/
theorem creds_init_and_persist :
    (∀ (env : S3Env) (pfx : String) (ia : JValue),
        env.objects (objectKeyOf pfx "creds.json") = none →
        initCreds env pfx ia = ia) ∧
    (∀ (env env2 : S3Env) (pfx : String) (creds ia2 : JValue),
        creds.truthy = true → BufferJSON.noTag creds = true →
        saveCreds env pfx creds = .ok env2 →
        env2.getFails (objectKeyOf pfx "creds.json") = false →
        initCreds env2 pfx ia2 = creds) := by
  constructor
  · intro env pfx ia ho
    unfold initCreds
    rw [readData_missing env pfx "creds.json" ho]
  · intro env env2 pfx creds ia2 htr hnt hsave hget
    cases hp : env.putFails (objectKeyOf pfx "creds.json")
    · rw [show saveCreds env pfx creds = writeData env pfx creds "creds.json" from rfl,
        writeData_ok env pfx creds "creds.json" hp] at hsave
      injection hsave with h2
      subst h2
      unfold initCreds
      rw [readData_jsonOf _ pfx "creds.json" (BufferJSON.encode creds) hget
        (by simp [setObject]), BufferJSON.decode_encode creds hnt]
      simp [htr]
    · rw [show saveCreds env pfx creds = writeData env pfx creds "creds.json" from rfl,
        writeData_failed env pfx creds "creds.json" hp] at hsave
      exact Except.noConfusion hsave

/-- C7 witness: on an empty bucket the handle starts from the
default-initialized credentials; after saving them, a fresh handle against
the same bucket and prefix reads back equal credentials. -/
theorem creds_init_and_persist_witness :
    initCreds cleanEnv "" (JValue.obj [("me", JValue.str "id")])
        = JValue.obj [("me", JValue.str "id")] ∧
    initCreds
      ⟨fun k => if k = objectKeyOf "" "creds.json"
          then some (some (S3Body.jsonOf
            (BufferJSON.encode (JValue.obj [("me", JValue.str "id")]))))
          else cleanEnv.objects k,
        cleanEnv.getFails, cleanEnv.putFails, cleanEnv.deleteFails⟩
      "" JValue.null = JValue.obj [("me", JValue.str "id")] :=
  ⟨creds_init_and_persist.1 cleanEnv "" _ rfl,
   creds_init_and_persist.2 cleanEnv _ "" (JValue.obj [("me", JValue.str "id")])
     JValue.null (by decide) (by decide) rfl rfl⟩

theorem objectKeyOf_ne (pfx a b : String)
    (h : (fixFileName (some a)).data ≠ (fixFileName (some b)).data) :
    objectKeyOf pfx a ≠ objectKeyOf pfx b := by
  intro he
  apply h
  have h2 := congrArg String.data he
  rw [objectKeyOf, objectKeyOf, String.data_append, String.data_append] at h2
  exact List.append_cancel_left h2

theorem keysGet_nil (fromObject : JValue → JValue) (env : S3Env) (pfx ty : String) :
    keysGet fromObject env pfx ty [] = [] := rfl

theorem keysGet_cons_other (fromObject : JValue → JValue) (env : S3Env)
    (pfx ty id : String) (ids : List String) (hty : ty ≠ "app-state-sync-key") :
    keysGet fromObject env pfx ty (id :: ids)
      = (id, readData env pfx (keyFileName ty id))
          :: keysGet fromObject env pfx ty ids := by
  simp [keysGet, hty]

/-- C1: the scenario `keys.set({ pre-key: { 1: v, 2: null } })` followed by
`keys.get("pre-key", ["1","2","3"])` behaves as a key-value map: `1` is
bound to `v`, while `2` (explicitly removed) and `3` (never written) are
bound to the absent sentinel — for any truthy, tag-free value `v` and any
bucket state in which the three object keys are fault-free and
`pre-key-3.json` is absent. -/
theorem keysSet_then_keysGet (fromObject : JValue → JValue) (env : S3Env)
    (pfx : String) (v : JValue)
    (hv : v.truthy = true) (hnt : BufferJSON.noTag v = true)
    (hput : env.putFails (objectKeyOf pfx "pre-key-1.json") = false)
    (hdel : env.deleteFails (objectKeyOf pfx "pre-key-2.json") = false)
    (hg1 : env.getFails (objectKeyOf pfx "pre-key-1.json") = false)
    (h3 : env.objects (objectKeyOf pfx "pre-key-3.json") = none) :
    (keysSet env pfx [("pre-key", [("1", v), ("2", JValue.null)])]).2 = false ∧
    keysGet fromObject
        (keysSet env pfx [("pre-key", [("1", v), ("2", JValue.null)])]).1
        pfx "pre-key" ["1", "2", "3"]
      = [("1", some v), ("2", none), ("3", none)] := by
  have hkf1 : keyFileName "pre-key" "1" = "pre-key-1.json" := rfl
  have hkf2 : keyFileName "pre-key" "2" = "pre-key-2.json" := rfl
  have hkf3 : keyFileName "pre-key" "3" = "pre-key-3.json" := rfl
  have hne12 := objectKeyOf_ne pfx "pre-key-1.json" "pre-key-2.json" (by decide)
  have hne31 := objectKeyOf_ne pfx "pre-key-3.json" "pre-key-1.json" (by decide)
  have hne32 := objectKeyOf_ne pfx "pre-key-3.json" "pre-key-2.json" (by decide)
  have hstep : keysSet env pfx [("pre-key", [("1", v), ("2", JValue.null)])]
      = (removeData (setObject env (objectKeyOf pfx "pre-key-1.json")
            (some (some (S3Body.jsonOf (BufferJSON.encode v)))))
          pfx "pre-key-2.json", false) := by
    unfold keysSet
    rw [List.foldl_cons, List.foldl_nil, keysSetStep_cons, hkf1, hv,
      writeData_ok env pfx v "pre-key-1.json" hput, keysSetStep_cons, hkf2]
    rfl
  have hrem : removeData (setObject env (objectKeyOf pfx "pre-key-1.json")
        (some (some (S3Body.jsonOf (BufferJSON.encode v)))))
      pfx "pre-key-2.json"
    = setObject (setObject env (objectKeyOf pfx "pre-key-1.json")
        (some (some (S3Body.jsonOf (BufferJSON.encode v)))))
        (objectKeyOf pfx "pre-key-2.json") none :=
    removeData_ok _ pfx "pre-key-2.json" hdel
  have hg1b : (setObject (setObject env (objectKeyOf pfx "pre-key-1.json")
      (some (some (S3Body.jsonOf (BufferJSON.encode v)))))
      (objectKeyOf pfx "pre-key-2.json") none).getFails
      (objectKeyOf pfx "pre-key-1.json") = false := hg1
  have hr1 : readData (setObject (setObject env (objectKeyOf pfx "pre-key-1.json")
        (some (some (S3Body.jsonOf (BufferJSON.encode v)))))
        (objectKeyOf pfx "pre-key-2.json") none) pfx "pre-key-1.json" = some v := by
    rw [readData_jsonOf _ pfx "pre-key-1.json" (BufferJSON.encode v) hg1b
      (by simp [setObject, hne12]), BufferJSON.decode_encode v hnt]
  have hr2 : readData (setObject (setObject env (objectKeyOf pfx "pre-key-1.json")
        (some (some (S3Body.jsonOf (BufferJSON.encode v)))))
        (objectKeyOf pfx "pre-key-2.json") none) pfx "pre-key-2.json" = none :=
    readData_missing _ pfx "pre-key-2.json" (by simp [setObject])
  have hr3 : readData (setObject (setObject env (objectKeyOf pfx "pre-key-1.json")
        (some (some (S3Body.jsonOf (BufferJSON.encode v)))))
        (objectKeyOf pfx "pre-key-2.json") none) pfx "pre-key-3.json" = none :=
    readData_missing _ pfx "pre-key-3.json" (by simp [setObject, hne31, hne32, h3])
  refine ⟨by rw [hstep], ?_⟩
  rw [hstep]
  show keysGet fromObject (removeData (setObject env (objectKeyOf pfx "pre-key-1.json")
      (some (some (S3Body.jsonOf (BufferJSON.encode v))))) pfx "pre-key-2.json")
      pfx "pre-key" ["1", "2", "3"] = _
  rw [hrem, keysGet_cons_other _ _ _ _ _ _ (by decide),
    keysGet_cons_other _ _ _ _ _ _ (by decide),
    keysGet_cons_other _ _ _ _ _ _ (by decide), keysGet_nil,
    hkf1, hkf2, hkf3, hr1, hr2, hr3]

/-- C1 witness: the spec's scenario on an empty bucket with the value
`\x7b foo: "bar" \x7d`. -/
theorem keysSet_then_keysGet_witness :
    (keysSet cleanEnv "" [("pre-key",
        [("1", JValue.obj [("foo", JValue.str "bar")]), ("2", JValue.null)])]).2
      = false ∧
    keysGet (fun x => x)
        (keysSet cleanEnv "" [("pre-key",
          [("1", JValue.obj [("foo", JValue.str "bar")]), ("2", JValue.null)])]).1
        "" "pre-key" ["1", "2", "3"]
      = [("1", some (JValue.obj [("foo", JValue.str "bar")])), ("2", none), ("3", none)] :=
  keysSet_then_keysGet (fun x => x) cleanEnv "" (JValue.obj [("foo", JValue.str "bar")])
    (by decide) (by decide) rfl rfl rfl rfl
